import Mathlib

/-!
Verification of the two-link planar robotic arm program (`RoboticsProject.py`).

The embedding models the three core functions over the reals:
`inverse_kinematics` (lines 18-48), `check_path` (lines 50-65) and the
per-request state update of the movement loop in `main` (lines 131-179),
here called `process_move`.
-/

open scoped Classical

noncomputable section

namespace Robotics

/-- Distance of `(x, y)` from the origin, `dist = math.sqrt(x**2 + y**2)` (line 23). -/
def ik_dist (x y : ℝ) : ℝ := Real.sqrt (x ^ 2 + y ^ 2)

/-- Law-of-cosines value `(l1**2 + dist**2 - l2**2) / (2 * l1 * dist)` followed by
the clamp `max(-1, min(1, cos_angle))` (lines 31-34). -/
def ik_cos_angle (x y l1 l2 : ℝ) : ℝ :=
  max (-1) (min 1 ((l1 ^ 2 + ik_dist x y ^ 2 - l2 ^ 2) / (2 * l1 * ik_dist x y)))

/-- Interior angle `alpha = math.acos(cos_angle)` (line 36). -/
def ik_alpha (x y l1 l2 : ℝ) : ℝ := Real.arccos (ik_cos_angle x y l1 l2)

/-- Target angle `theta = math.atan2(y, x)` (line 37), modelled as the argument of
the complex number with real part `x` and imaginary part `y`. -/
def ik_theta (x y : ℝ) : ℝ := Complex.arg ⟨x, y⟩

/-- Shoulder angle: `q1 = theta + alpha` in left mode, `theta - alpha` otherwise
(lines 40-43). -/
def ik_q1 (x y l1 l2 : ℝ) (left_mode : Bool) : ℝ :=
  if left_mode then ik_theta x y + ik_alpha x y l1 l2
  else ik_theta x y - ik_alpha x y l1 l2

/-- `inverse_kinematics(x, y, l1, l2, left_mode)` (lines 18-48): returns `none`
when `dist > l1 + l2 or dist < abs(l1 - l2) or dist == 0`, otherwise the elbow
position `(l1 * cos(q1), l1 * sin(q1))`. -/
def inverse_kinematics (x y l1 l2 : ℝ) (left_mode : Bool) : Option (ℝ × ℝ) :=
  if ik_dist x y > l1 + l2 ∨ ik_dist x y < |l1 - l2| ∨ ik_dist x y = 0 then none
  else some (l1 * Real.cos (ik_q1 x y l1 l2 left_mode),
             l1 * Real.sin (ik_q1 x y l1 l2 left_mode))

/-- Sampled coordinate `a + (b - a) * t` at `t = i / 40` (lines 58-61). -/
def path_point (a b : ℝ) (i : ℕ) : ℝ := a + (b - a) * ((i : ℝ) / 40)

/-- `check_path(x1, y1, x2, y2, l1, l2)` (lines 50-65): samples `i = 0..40` and
returns `False` as soon as a sample's distance is below `min_r - 1`, where
`min_r = abs(l1 - l2)`; returns `True` otherwise. -/
def check_path (x1 y1 x2 y2 l1 l2 : ℝ) : Bool :=
  (List.range 41).all fun i =>
    !decide (Real.sqrt (path_point x1 x2 i ^ 2 + path_point y1 y2 i ^ 2) < |l1 - l2| - 1)

/-- The animation loop's accumulation `curr_x += dx; curr_y += dy` run `n` times
(lines 159-161). -/
def animate (cx cy dx dy : ℝ) : ℕ → ℝ × ℝ
  | 0 => (cx, cy)
  | n + 1 => ((animate cx cy dx dy n).1 + dx, (animate cx cy dx dy n).2 + dy)

/-- One iteration of the movement loop of `main` (lines 139-179) acting on the
current position: a target rejected by `inverse_kinematics` or by `check_path`
leaves the position unchanged (`continue`); otherwise the animation loop runs
40 accumulation steps and the position is then snapped to exactly `(nx, ny)`
(line 179). -/
def process_move (cx cy nx ny l1 l2 : ℝ) (left_mode : Bool) : ℝ × ℝ :=
  if inverse_kinematics nx ny l1 l2 left_mode = none then (cx, cy)
  else if check_path cx cy nx ny l1 l2 = false then (cx, cy)
  else
    let dx := (nx - cx) / 40
    let dy := (ny - cy) / 40
    let _after_loop := animate cx cy dx dy 40
    (nx, ny)

/-! ### Basic facts about the embedded definitions -/

lemma ik_dist_nonneg (x y : ℝ) : 0 ≤ ik_dist x y := Real.sqrt_nonneg _

lemma ik_dist_sq (x y : ℝ) : ik_dist x y ^ 2 = x ^ 2 + y ^ 2 :=
  Real.sq_sqrt (by positivity)

lemma ik_dist_0_0 : ik_dist 0 0 = 0 := by
  unfold ik_dist; norm_num

lemma ik_dist_1_0 : ik_dist 1 0 = 1 := by
  unfold ik_dist
  rw [show ((1 : ℝ) ^ 2 + 0 ^ 2) = 1 by norm_num, Real.sqrt_one]

lemma ik_dist_2_0 : ik_dist 2 0 = 2 := by
  unfold ik_dist
  rw [show ((2 : ℝ) ^ 2 + 0 ^ 2) = 2 ^ 2 by norm_num, Real.sqrt_sq (by norm_num)]

lemma ik_dist_3_0 : ik_dist 3 0 = 3 := by
  unfold ik_dist
  rw [show ((3 : ℝ) ^ 2 + 0 ^ 2) = 3 ^ 2 by norm_num, Real.sqrt_sq (by norm_num)]

lemma cond_1_0_false :
    ¬(ik_dist 1 0 > 1 + 1 ∨ ik_dist 1 0 < |(1 : ℝ) - 1| ∨ ik_dist 1 0 = 0) := by
  rw [ik_dist_1_0]; norm_num

lemma cond_2_0_false :
    ¬(ik_dist 2 0 > 1 + 1 ∨ ik_dist 2 0 < |(1 : ℝ) - 1| ∨ ik_dist 2 0 = 0) := by
  rw [ik_dist_2_0]; norm_num

lemma ik_3_0_none : inverse_kinematics 3 0 1 1 false = none := by
  unfold inverse_kinematics
  rw [if_pos (Or.inl (by rw [ik_dist_3_0]; norm_num))]

lemma ik_1_0_ne_none : inverse_kinematics 1 0 1 1 false ≠ none := by
  unfold inverse_kinematics
  rw [if_neg cond_1_0_false]
  exact Option.some_ne_none _

lemma ik_2_0_ne_none : inverse_kinematics 2 0 1 1 false ≠ none := by
  unfold inverse_kinematics
  rw [if_neg cond_2_0_false]
  exact Option.some_ne_none _

/-! ### C1: the solver fails exactly on the targets outside the annulus -/

/-- C1: for every arm with `l1, l2 > 0` and every target, the solver returns the
unreachable failure (`none`) exactly when the target's distance from the origin
exceeds `l1 + l2`, is below `|l1 - l2|`, or equals `0`; in particular the origin
always fails, and every other target yields an elbow position. -/
theorem ik_unreachable_iff (x y l1 l2 : ℝ) (m : Bool)
    (hl1 : 0 < l1) (hl2 : 0 < l2) :
    (inverse_kinematics x y l1 l2 m = none ↔
      ik_dist x y > l1 + l2 ∨ ik_dist x y < |l1 - l2| ∨ ik_dist x y = 0) ∧
    inverse_kinematics 0 0 l1 l2 m = none ∧
    (¬(ik_dist x y > l1 + l2 ∨ ik_dist x y < |l1 - l2| ∨ ik_dist x y = 0) →
      (inverse_kinematics x y l1 l2 m).isSome = true) := by
  refine ⟨?_, ?_, ?_⟩
  · unfold inverse_kinematics
    by_cases h : ik_dist x y > l1 + l2 ∨ ik_dist x y < |l1 - l2| ∨ ik_dist x y = 0
    · rw [if_pos h]; simpa using h
    · rw [if_neg h]; simpa using h
  · unfold inverse_kinematics
    rw [if_pos (Or.inr (Or.inr ik_dist_0_0))]
  · intro h
    unfold inverse_kinematics
    rw [if_neg h]
    rfl

/-- Witness for C1 at `l1 = l2 = 1`, target `(3, 0)`. -/
theorem ik_unreachable_iff_witness :
    ((0 : ℝ) < 1 ∧ (0 : ℝ) < 1) ∧
    ((inverse_kinematics 3 0 1 1 false = none ↔
        ik_dist 3 0 > 1 + 1 ∨ ik_dist 3 0 < |(1 : ℝ) - 1| ∨ ik_dist 3 0 = 0) ∧
      inverse_kinematics 0 0 1 1 false = none ∧
      (¬(ik_dist 3 0 > 1 + 1 ∨ ik_dist 3 0 < |(1 : ℝ) - 1| ∨ ik_dist 3 0 = 0) →
        (inverse_kinematics 3 0 1 1 false).isSome = true)) :=
  ⟨⟨by norm_num, by norm_num⟩,
    ik_unreachable_iff 3 0 1 1 false (by norm_num) (by norm_num)⟩

/-! ### C7: the clamp keeps the acos argument in range -/

/-- C7: for every target that passes the reachability check, the law-of-cosines
value is clamped into `[-1, 1]` before `acos` is applied (so the `acos` domain
error is impossible), and the distance divided by is nonzero. -/
theorem ik_clamp_safe (x y l1 l2 : ℝ)
    (h : ¬(ik_dist x y > l1 + l2 ∨ ik_dist x y < |l1 - l2| ∨ ik_dist x y = 0)) :
    (-1 ≤ ik_cos_angle x y l1 l2 ∧ ik_cos_angle x y l1 l2 ≤ 1) ∧
    ik_alpha x y l1 l2 = Real.arccos (ik_cos_angle x y l1 l2) ∧
    ik_dist x y ≠ 0 := by
  push_neg at h
  exact ⟨⟨le_max_left _ _, max_le (by norm_num) (min_le_left _ _)⟩, rfl, h.2.2⟩

/-- Witness for C7 at `l1 = l2 = 1`, target `(1, 0)`. -/
theorem ik_clamp_safe_witness :
    ¬(ik_dist 1 0 > 1 + 1 ∨ ik_dist 1 0 < |(1 : ℝ) - 1| ∨ ik_dist 1 0 = 0) ∧
    ((-1 ≤ ik_cos_angle 1 0 1 1 ∧ ik_cos_angle 1 0 1 1 ≤ 1) ∧
      ik_alpha 1 0 1 1 = Real.arccos (ik_cos_angle 1 0 1 1) ∧
      ik_dist 1 0 ≠ 0) :=
  ⟨cond_1_0_false, ik_clamp_safe 1 0 1 1 cond_1_0_false⟩

/-! ### C2: the path validator checks exactly the 41 samples against the margin -/

/-- C2: the path validator samples exactly the 41 points at parameters
`t = i / 40` for `i = 0..40` (covering both endpoints), and returns `true` if
and only if every sample's distance from the origin is at least
`min_r - 1 = |l1 - l2| - 1`. -/
theorem check_path_iff (x1 y1 x2 y2 l1 l2 : ℝ) (hl1 : 0 < l1) (hl2 : 0 < l2) :
    (path_point x1 x2 0 = x1 ∧ path_point y1 y2 0 = y1 ∧
      path_point x1 x2 40 = x2 ∧ path_point y1 y2 40 = y2) ∧
    (check_path x1 y1 x2 y2 l1 l2 = true ↔
      ∀ i ∈ Finset.range 41,
        |l1 - l2| - 1 ≤
          Real.sqrt (path_point x1 x2 i ^ 2 + path_point y1 y2 i ^ 2)) := by
  constructor
  · refine ⟨?_, ?_, ?_, ?_⟩ <;> (unfold path_point; push_cast; ring_nf)
  · unfold check_path
    simp only [List.all_eq_true, List.mem_range, Finset.mem_range,
      Bool.not_eq_true', decide_eq_false_iff_not, not_lt]

/-- Witness for C2 at `l1 = l2 = 1`, endpoints `(1, 0)` and `(2, 0)`. -/
theorem check_path_iff_witness :
    ((0 : ℝ) < 1 ∧ (0 : ℝ) < 1) ∧
    ((path_point 1 2 0 = 1 ∧ path_point 0 0 0 = 0 ∧
        path_point 1 2 40 = 2 ∧ path_point 0 0 40 = 0) ∧
      (check_path 1 0 2 0 1 1 = true ↔
        ∀ i ∈ Finset.range 41,
          |(1 : ℝ) - 1| - 1 ≤
            Real.sqrt (path_point 1 2 i ^ 2 + path_point 0 0 i ^ 2))) :=
  ⟨⟨by norm_num, by norm_num⟩, check_path_iff 1 0 2 0 1 1 (by norm_num) (by norm_num)⟩

lemma check_path_true_of_margin_nonpos (x1 y1 x2 y2 l1 l2 : ℝ)
    (h : |l1 - l2| - 1 ≤ 0) : check_path x1 y1 x2 y2 l1 l2 = true := by
  unfold check_path
  rw [List.all_eq_true]
  intro i _
  simp only [Bool.not_eq_true', decide_eq_false_iff_not, not_lt]
  exact le_trans h (Real.sqrt_nonneg _)

lemma check_path_1_0_2_0 : check_path 1 0 2 0 1 1 = true :=
  check_path_true_of_margin_nonpos 1 0 2 0 1 1 (by norm_num)

/-! ### C5: the straight move through the origin with `l1 = l2 = 100` -/

/-- C5 counterexample: the claim says the validator rejects the move from
`(150, 0)` to `(-150, 0)` with `l1 = l2 = 100`; in the code `min_r - 1 = -1`,
no sample can have negative distance, and the validator does not return
`false`. -/
theorem check_path_through_origin_not_false :
    check_path 150 0 (-150) 0 100 100 ≠ false := by
  rw [check_path_true_of_margin_nonpos 150 0 (-150) 0 100 100 (by norm_num)]
  simp

/-- C5 amended: with `l1 = l2 = 100` the rejection threshold is
`min_r - 1 = -1`, below every distance, so the validator accepts the move from
`(150, 0)` to `(-150, 0)` straight through the origin: it returns `true`. -/
theorem check_path_through_origin_true :
    check_path 150 0 (-150) 0 100 100 = true :=
  check_path_true_of_margin_nonpos 150 0 (-150) 0 100 100 (by norm_num)

/-! ### C9: a zero-length move from a reachable point is always clear -/

/-- C9: for every arm with `l1, l2 > 0` and every point the solver accepts, the
path validator approves the zero-length move from that point to itself. -/
theorem check_path_zero_length (x y l1 l2 : ℝ) (m : Bool)
    (hl1 : 0 < l1) (hl2 : 0 < l2)
    (hreach : inverse_kinematics x y l1 l2 m ≠ none) :
    check_path x y x y l1 l2 = true := by
  have hcond : ¬(ik_dist x y > l1 + l2 ∨ ik_dist x y < |l1 - l2| ∨ ik_dist x y = 0) := by
    intro hc
    apply hreach
    unfold inverse_kinematics
    rw [if_pos hc]
  push_neg at hcond
  unfold check_path
  rw [List.all_eq_true]
  intro i _
  simp only [Bool.not_eq_true', decide_eq_false_iff_not, not_lt]
  have hx : path_point x x i = x := by unfold path_point; ring
  have hy : path_point y y i = y := by unfold path_point; ring
  rw [hx, hy]
  have : |l1 - l2| ≤ Real.sqrt (x ^ 2 + y ^ 2) := hcond.2.1
  linarith

/-- Witness for C9 at `l1 = l2 = 1`, point `(1, 0)`. -/
theorem check_path_zero_length_witness :
    ((0 : ℝ) < 1 ∧ inverse_kinematics 1 0 1 1 false ≠ none) ∧
    check_path 1 0 1 0 1 1 = true :=
  ⟨⟨by norm_num, ik_1_0_ne_none⟩,
    check_path_zero_length 1 0 1 1 false (by norm_num) (by norm_num) ik_1_0_ne_none⟩

/-! ### C3: rejected moves leave the position unchanged, successful ones snap -/

/-- C3: a move request rejected by the range check or the path check leaves the
current position exactly unchanged, and a successful move ends with the current
position snapped to exactly the requested target `(nx, ny)`. -/
theorem process_move_state (cx cy nx ny l1 l2 : ℝ) (m : Bool) :
    ((inverse_kinematics nx ny l1 l2 m = none ∨ check_path cx cy nx ny l1 l2 = false) →
      process_move cx cy nx ny l1 l2 m = (cx, cy)) ∧
    (inverse_kinematics nx ny l1 l2 m ≠ none → check_path cx cy nx ny l1 l2 = true →
      process_move cx cy nx ny l1 l2 m = (nx, ny)) := by
  constructor
  · intro h
    unfold process_move
    rcases h with h | h
    · rw [if_pos h]
    · by_cases h2 : inverse_kinematics nx ny l1 l2 m = none
      · rw [if_pos h2]
      · rw [if_neg h2, if_pos h]
  · intro h1 h2
    unfold process_move
    rw [if_neg h1, if_neg (by rw [h2]; simp)]

/-- Witness for C3: a rejected move from `(1, 0)` to the out-of-range `(3, 0)`
keeps the position, and an accepted move from `(1, 0)` to `(2, 0)` ends at
exactly `(2, 0)` (arm `l1 = l2 = 1`). -/
theorem process_move_state_witness :
    process_move 1 0 3 0 1 1 false = (1, 0) ∧
    process_move 1 0 2 0 1 1 false = (2, 0) :=
  ⟨(process_move_state 1 0 3 0 1 1 false).1 (Or.inl ik_3_0_none),
    (process_move_state 1 0 2 0 1 1 false).2 ik_2_0_ne_none check_path_1_0_2_0⟩

/-! ### C6: boundary targets -/

/-- C6 counterexample: with `l1 = l2 = 1` the fully folded radius `|l1 - l2|`
is `0`, the only point at that distance is the origin, and the solver fails
there even though the target's distance equals `|l1 - l2|` exactly. -/
theorem ik_boundary_counterexample :
    ((0 : ℝ) < 1 ∧ (0 : ℝ) < 1 ∧ ik_dist 0 0 = |(1 : ℝ) - 1|) ∧
    inverse_kinematics 0 0 1 1 false = none := by
  refine ⟨⟨by norm_num, by norm_num, by rw [ik_dist_0_0]; norm_num⟩, ?_⟩
  unfold inverse_kinematics
  rw [if_pos (Or.inr (Or.inr ik_dist_0_0))]

/-- C6 amended: for `l1, l2 > 0` the solver succeeds on every target at
distance exactly `l1 + l2`, and on every target at distance exactly `|l1 - l2|`
provided that distance is nonzero (when `l1 = l2` the folded boundary collapses
to the origin, which the solver rejects). -/
theorem ik_boundary_inclusive (x y l1 l2 : ℝ) (m : Bool)
    (hl1 : 0 < l1) (hl2 : 0 < l2)
    (hb : ik_dist x y = l1 + l2 ∨ (ik_dist x y = |l1 - l2| ∧ ik_dist x y ≠ 0)) :
    (inverse_kinematics x y l1 l2 m).isSome = true := by
  have habs : |l1 - l2| ≤ l1 + l2 := by
    rw [abs_le]; constructor <;> linarith
  have hcond : ¬(ik_dist x y > l1 + l2 ∨ ik_dist x y < |l1 - l2| ∨ ik_dist x y = 0) := by
    push_neg
    rcases hb with h | ⟨h, hne⟩
    · exact ⟨le_of_eq h, by rw [h]; exact habs, by rw [h]; positivity⟩
    · exact ⟨by rw [h]; exact habs, le_of_eq h.symm, hne⟩
  unfold inverse_kinematics
  rw [if_neg hcond]
  rfl

/-- Witness for C6 (amended) at `l1 = l2 = 1`, fully extended target `(2, 0)`. -/
theorem ik_boundary_inclusive_witness :
    ((0 : ℝ) < 1 ∧ ik_dist 2 0 = 1 + 1) ∧
    (inverse_kinematics 2 0 1 1 false).isSome = true :=
  ⟨⟨by norm_num, by rw [ik_dist_2_0]; norm_num⟩,
    ik_boundary_inclusive 2 0 1 1 false (by norm_num) (by norm_num)
      (Or.inl (by rw [ik_dist_2_0]; norm_num))⟩

/-! ### Concrete evaluations of the solver -/

lemma arg_of_mk_2_0 : Complex.arg ⟨2, 0⟩ = 0 := by
  have h : (⟨2, 0⟩ : ℂ) = ((2 : ℝ) : ℂ) := by
    apply Complex.ext <;> simp
  rw [h, Complex.arg_ofReal_of_nonneg (by norm_num)]

lemma arg_of_mk_1_0 : Complex.arg ⟨1, 0⟩ = 0 := by
  have h : (⟨1, 0⟩ : ℂ) = ((1 : ℝ) : ℂ) := by
    apply Complex.ext <;> simp
  rw [h, Complex.arg_ofReal_of_nonneg (by norm_num)]

lemma ik_q1_2_0 : ik_q1 2 0 1 1 false = 0 := by
  unfold ik_q1 ik_theta ik_alpha ik_cos_angle
  rw [if_neg (by simp)]
  rw [ik_dist_2_0, arg_of_mk_2_0]
  rw [show ((1 : ℝ) ^ 2 + 2 ^ 2 - 1 ^ 2) / (2 * 1 * 2) = 1 by norm_num]
  rw [min_self, max_eq_right (by norm_num : (-1 : ℝ) ≤ 1), Real.arccos_one]
  ring

lemma ik_2_0_eq : inverse_kinematics 2 0 1 1 false = some (1, 0) := by
  unfold inverse_kinematics
  rw [if_neg cond_2_0_false, ik_q1_2_0, Real.cos_zero, Real.sin_zero]
  norm_num

/-! ### C10: the elbow lies on the circle of radius `l1` -/

/-- C10: every elbow position returned by a successful solve lies exactly on
the circle of radius `l1` around the shoulder origin, for every target and
handedness. -/
theorem ik_elbow_on_circle (x y l1 l2 ex ey : ℝ) (m : Bool)
    (h : inverse_kinematics x y l1 l2 m = some (ex, ey)) :
    ex ^ 2 + ey ^ 2 = l1 ^ 2 := by
  unfold inverse_kinematics at h
  by_cases hc : ik_dist x y > l1 + l2 ∨ ik_dist x y < |l1 - l2| ∨ ik_dist x y = 0
  · rw [if_pos hc] at h
    exact absurd h (by simp)
  · rw [if_neg hc] at h
    simp only [Option.some.injEq, Prod.mk.injEq] at h
    obtain ⟨h1, h2⟩ := h
    have hsc := Real.sin_sq_add_cos_sq (ik_q1 x y l1 l2 m)
    rw [← h1, ← h2]
    linear_combination l1 ^ 2 * hsc

/-- Witness for C10: the solve of target `(2, 0)` with `l1 = l2 = 1` returns
elbow `(1, 0)`, which satisfies `1 ^ 2 + 0 ^ 2 = 1 ^ 2`. -/
theorem ik_elbow_on_circle_witness :
    inverse_kinematics 2 0 1 1 false = some (1, 0) ∧
    (1 : ℝ) ^ 2 + 0 ^ 2 = 1 ^ 2 :=
  ⟨ik_2_0_eq, ik_elbow_on_circle 2 0 1 1 1 0 false ik_2_0_eq⟩

/-! ### C4: handedness selects the IK branch -/

/-- C4 counterexample: at target `(1, 0)` with `l1 = 1`, `l2 = 2` (a reachable,
fully folded target) the interior angle is `alpha = π ≠ 0`, yet the
left-handed and right-handed solves return the same elbow position, refuting
the claim that the elbows differ whenever `alpha ≠ 0`. -/
theorem ik_handedness_counterexample :
    ik_alpha 1 0 1 2 ≠ 0 ∧
    inverse_kinematics 1 0 1 2 true = inverse_kinematics 1 0 1 2 false := by
  have halpha : ik_alpha 1 0 1 2 = Real.pi := by
    unfold ik_alpha ik_cos_angle
    rw [ik_dist_1_0]
    rw [show ((1 : ℝ) ^ 2 + 1 ^ 2 - 2 ^ 2) / (2 * 1 * 1) = -1 by norm_num]
    rw [min_eq_right (by norm_num : (-1 : ℝ) ≤ 1), max_self, Real.arccos_neg_one]
  have hcond : ¬(ik_dist 1 0 > 1 + 2 ∨ ik_dist 1 0 < |(1 : ℝ) - 2| ∨ ik_dist 1 0 = 0) := by
    rw [ik_dist_1_0]; norm_num
  constructor
  · rw [halpha]; exact Real.pi_ne_zero
  · unfold inverse_kinematics
    rw [if_neg hcond, if_neg hcond]
    unfold ik_q1
    rw [if_pos rfl, if_neg (by simp), halpha, ik_theta]
    rw [arg_of_mk_1_0, zero_add, zero_sub, Real.cos_neg, Real.sin_neg, Real.sin_pi]
    norm_num

/-- C4 amended: for every reachable target the solver uses
`q1 = theta + alpha` in left-handed mode and `q1 = theta - alpha` otherwise,
and the two handedness choices produce different elbow positions whenever
`sin alpha ≠ 0`, i.e. whenever `alpha` is neither `0` (full extension) nor `π`
(full fold). -/
theorem ik_handedness (x y l1 l2 : ℝ) (hl1 : 0 < l1)
    (hr : ¬(ik_dist x y > l1 + l2 ∨ ik_dist x y < |l1 - l2| ∨ ik_dist x y = 0)) :
    inverse_kinematics x y l1 l2 true =
      some (l1 * Real.cos (ik_theta x y + ik_alpha x y l1 l2),
            l1 * Real.sin (ik_theta x y + ik_alpha x y l1 l2)) ∧
    inverse_kinematics x y l1 l2 false =
      some (l1 * Real.cos (ik_theta x y - ik_alpha x y l1 l2),
            l1 * Real.sin (ik_theta x y - ik_alpha x y l1 l2)) ∧
    (Real.sin (ik_alpha x y l1 l2) ≠ 0 →
      inverse_kinematics x y l1 l2 true ≠ inverse_kinematics x y l1 l2 false) := by
  have ht : inverse_kinematics x y l1 l2 true =
      some (l1 * Real.cos (ik_theta x y + ik_alpha x y l1 l2),
            l1 * Real.sin (ik_theta x y + ik_alpha x y l1 l2)) := by
    unfold inverse_kinematics
    rw [if_neg hr]
    unfold ik_q1
    rw [if_pos rfl]
  have hf : inverse_kinematics x y l1 l2 false =
      some (l1 * Real.cos (ik_theta x y - ik_alpha x y l1 l2),
            l1 * Real.sin (ik_theta x y - ik_alpha x y l1 l2)) := by
    unfold inverse_kinematics
    rw [if_neg hr]
    unfold ik_q1
    rw [if_neg (by simp)]
  refine ⟨ht, hf, fun hs hcontra => ?_⟩
  rw [ht, hf] at hcontra
  simp only [Option.some.injEq, Prod.mk.injEq] at hcontra
  obtain ⟨h1, h2⟩ := hcontra
  have hc1 : Real.cos (ik_theta x y + ik_alpha x y l1 l2) =
      Real.cos (ik_theta x y - ik_alpha x y l1 l2) := mul_left_cancel₀ (ne_of_gt hl1) h1
  have hc2 : Real.sin (ik_theta x y + ik_alpha x y l1 l2) =
      Real.sin (ik_theta x y - ik_alpha x y l1 l2) := mul_left_cancel₀ (ne_of_gt hl1) h2
  rw [Real.cos_add, Real.cos_sub] at hc1
  rw [Real.sin_add, Real.sin_sub] at hc2
  have hs1 : Real.sin (ik_theta x y) * Real.sin (ik_alpha x y l1 l2) = 0 := by linarith
  have hs2 : Real.cos (ik_theta x y) * Real.sin (ik_alpha x y l1 l2) = 0 := by linarith
  have hsin : Real.sin (ik_theta x y) = 0 :=
    (mul_eq_zero.mp hs1).resolve_right hs
  have hcos : Real.cos (ik_theta x y) = 0 :=
    (mul_eq_zero.mp hs2).resolve_right hs
  have := Real.sin_sq_add_cos_sq (ik_theta x y)
  rw [hsin, hcos] at this
  norm_num at this

/-- Witness for C4 (amended) at `l1 = l2 = 1`, target `(1, 0)`. -/
theorem ik_handedness_witness :
    ((0 : ℝ) < 1 ∧
      ¬(ik_dist 1 0 > 1 + 1 ∨ ik_dist 1 0 < |(1 : ℝ) - 1| ∨ ik_dist 1 0 = 0)) ∧
    (inverse_kinematics 1 0 1 1 true =
        some (1 * Real.cos (ik_theta 1 0 + ik_alpha 1 0 1 1),
              1 * Real.sin (ik_theta 1 0 + ik_alpha 1 0 1 1)) ∧
      inverse_kinematics 1 0 1 1 false =
        some (1 * Real.cos (ik_theta 1 0 - ik_alpha 1 0 1 1),
              1 * Real.sin (ik_theta 1 0 - ik_alpha 1 0 1 1)) ∧
      (Real.sin (ik_alpha 1 0 1 1) ≠ 0 →
        inverse_kinematics 1 0 1 1 true ≠ inverse_kinematics 1 0 1 1 false)) :=
  ⟨⟨by norm_num, cond_1_0_false⟩, ik_handedness 1 0 1 1 (by norm_num) cond_1_0_false⟩

/-! ### C8: inverse kinematics round-trips through forward kinematics -/

lemma elbow_dot_add (d t a : ℝ) :
    (d * Real.cos t) * Real.cos (t + a) + (d * Real.sin t) * Real.sin (t + a)
      = d * Real.cos a := by
  rw [Real.cos_add, Real.sin_add]
  have h := Real.sin_sq_add_cos_sq t
  linear_combination d * Real.cos a * h

lemma elbow_dot_sub (d t a : ℝ) :
    (d * Real.cos t) * Real.cos (t - a) + (d * Real.sin t) * Real.sin (t - a)
      = d * Real.cos a := by
  rw [Real.cos_sub, Real.sin_sub]
  have h := Real.sin_sq_add_cos_sq t
  linear_combination d * Real.cos a * h

lemma ik_polar_x (x y : ℝ) : ik_dist x y * Real.cos (ik_theta x y) = x := by
  have habs : Complex.abs ⟨x, y⟩ = ik_dist x y := by
    unfold ik_dist
    rw [Complex.abs_apply, Complex.normSq_mk]
    congr 1
    ring
  have h := Complex.abs_mul_cos_arg (⟨x, y⟩ : ℂ)
  rw [habs] at h
  exact h

lemma ik_polar_y (x y : ℝ) : ik_dist x y * Real.sin (ik_theta x y) = y := by
  have habs : Complex.abs ⟨x, y⟩ = ik_dist x y := by
    unfold ik_dist
    rw [Complex.abs_apply, Complex.normSq_mk]
    congr 1
    ring
  have h := Complex.abs_mul_sin_arg (⟨x, y⟩ : ℂ)
  rw [habs] at h
  exact h

lemma ik_cos_alpha_reachable (x y l1 l2 : ℝ) (hl1 : 0 < l1) (hl2 : 0 < l2)
    (hr : ¬(ik_dist x y > l1 + l2 ∨ ik_dist x y < |l1 - l2| ∨ ik_dist x y = 0)) :
    Real.cos (ik_alpha x y l1 l2) =
      (l1 ^ 2 + ik_dist x y ^ 2 - l2 ^ 2) / (2 * l1 * ik_dist x y) := by
  push_neg at hr
  obtain ⟨hle, hge, hne⟩ := hr
  have hd0 : 0 < ik_dist x y := lt_of_le_of_ne (ik_dist_nonneg x y) (Ne.symm hne)
  have hab1 : l1 - l2 ≤ ik_dist x y := le_trans (le_abs_self _) hge
  have hab2 : l2 - l1 ≤ ik_dist x y := by
    have := neg_le_abs (l1 - l2)
    linarith
  have hv1 : (l1 ^ 2 + ik_dist x y ^ 2 - l2 ^ 2) / (2 * l1 * ik_dist x y) ≤ 1 := by
    rw [div_le_one (by positivity)]
    nlinarith [mul_nonneg (sub_nonneg.mpr hle) (sub_nonneg.mpr hab1)]
  have hv2 : -1 ≤ (l1 ^ 2 + ik_dist x y ^ 2 - l2 ^ 2) / (2 * l1 * ik_dist x y) := by
    rw [le_div_iff₀ (by positivity)]
    nlinarith [mul_nonneg (sub_nonneg.mpr hab2)
      (by positivity : (0 : ℝ) ≤ l1 + ik_dist x y + l2)]
  have hclamp : ik_cos_angle x y l1 l2 =
      (l1 ^ 2 + ik_dist x y ^ 2 - l2 ^ 2) / (2 * l1 * ik_dist x y) := by
    unfold ik_cos_angle
    rw [min_eq_right hv1, max_eq_right hv2]
  unfold ik_alpha
  rw [hclamp, Real.cos_arccos hv2 hv1]

/-- C8: for every successful solve the returned elbow is at distance exactly
`l2` from the target, so the second link of length `l2` placed from the elbow
along the direction of the solved second joint reproduces the target exactly —
in particular within the floating-point tolerance `1e-6`. -/
theorem ik_roundtrip (x y l1 l2 ex ey : ℝ) (m : Bool)
    (hl1 : 0 < l1) (hl2 : 0 < l2)
    (h : inverse_kinematics x y l1 l2 m = some (ex, ey)) :
    (x - ex) ^ 2 + (y - ey) ^ 2 = l2 ^ 2 ∧
    (ex + l2 * Real.cos (ik_theta (x - ex) (y - ey)) = x ∧
      ey + l2 * Real.sin (ik_theta (x - ex) (y - ey)) = y) ∧
    (|ex + l2 * Real.cos (ik_theta (x - ex) (y - ey)) - x| ≤ 1e-6 ∧
      |ey + l2 * Real.sin (ik_theta (x - ex) (y - ey)) - y| ≤ 1e-6) := by
  have hr : ¬(ik_dist x y > l1 + l2 ∨ ik_dist x y < |l1 - l2| ∨ ik_dist x y = 0) := by
    intro hc
    rw [inverse_kinematics, if_pos hc] at h
    exact Option.noConfusion h
  have hcosa := ik_cos_alpha_reachable x y l1 l2 hl1 hl2 hr
  have hd0 : 0 < ik_dist x y := by
    push_neg at hr
    exact lt_of_le_of_ne (ik_dist_nonneg x y) (Ne.symm hr.2.2)
  rw [inverse_kinematics, if_neg hr] at h
  simp only [Option.some.injEq, Prod.mk.injEq] at h
  obtain ⟨hex, hey⟩ := h
  have h2cos : 2 * l1 * (ik_dist x y * Real.cos (ik_alpha x y l1 l2)) =
      l1 ^ 2 + ik_dist x y ^ 2 - l2 ^ 2 := by
    rw [hcosa]
    field_simp
    ring
  have hkey : x * Real.cos (ik_q1 x y l1 l2 m) + y * Real.sin (ik_q1 x y l1 l2 m)
      = ik_dist x y * Real.cos (ik_alpha x y l1 l2) := by
    have hsub := elbow_dot_sub (ik_dist x y) (ik_theta x y) (ik_alpha x y l1 l2)
    have hadd := elbow_dot_add (ik_dist x y) (ik_theta x y) (ik_alpha x y l1 l2)
    rw [ik_polar_x x y, ik_polar_y x y] at hsub hadd
    unfold ik_q1
    cases m
    · rw [if_neg (by simp)]
      exact hsub
    · rw [if_pos rfl]
      exact hadd
  have hd2 : x ^ 2 + y ^ 2 = ik_dist x y ^ 2 := (ik_dist_sq x y).symm
  have hsc := Real.sin_sq_add_cos_sq (ik_q1 x y l1 l2 m)
  have hmain : (x - ex) ^ 2 + (y - ey) ^ 2 = l2 ^ 2 := by
    rw [← hex, ← hey]
    linear_combination hd2 - 2 * l1 * hkey + l1 ^ 2 * hsc - h2cos
  have hux : x - ex = Real.sqrt ((x - ex) ^ 2 + (y - ey) ^ 2) *
      Real.cos (ik_theta (x - ex) (y - ey)) := (ik_polar_x (x - ex) (y - ey)).symm
  have huy : y - ey = Real.sqrt ((x - ex) ^ 2 + (y - ey) ^ 2) *
      Real.sin (ik_theta (x - ex) (y - ey)) := (ik_polar_y (x - ex) (y - ey)).symm
  have hlen : Real.sqrt ((x - ex) ^ 2 + (y - ey) ^ 2) = l2 := by
    rw [hmain, Real.sqrt_sq hl2.le]
  rw [hlen] at hux huy
  have hfwdx : ex + l2 * Real.cos (ik_theta (x - ex) (y - ey)) = x := by linarith
  have hfwdy : ey + l2 * Real.sin (ik_theta (x - ex) (y - ey)) = y := by linarith
  refine ⟨hmain, ⟨hfwdx, hfwdy⟩, ?_, ?_⟩
  · rw [hfwdx, sub_self, abs_zero]
    norm_num
  · rw [hfwdy, sub_self, abs_zero]
    norm_num

/-- Witness for C8: the solve of target `(2, 0)` with `l1 = l2 = 1` returns
elbow `(1, 0)`, and the round trip reproduces the target. -/
theorem ik_roundtrip_witness :
    ((0 : ℝ) < 1 ∧ inverse_kinematics 2 0 1 1 false = some (1, 0)) ∧
    (((2 : ℝ) - 1) ^ 2 + ((0 : ℝ) - 0) ^ 2 = 1 ^ 2 ∧
      ((1 : ℝ) + 1 * Real.cos (ik_theta (2 - 1) (0 - 0)) = 2 ∧
        (0 : ℝ) + 1 * Real.sin (ik_theta (2 - 1) (0 - 0)) = 0) ∧
      (|(1 : ℝ) + 1 * Real.cos (ik_theta (2 - 1) (0 - 0)) - 2| ≤ 1e-6 ∧
        |(0 : ℝ) + 1 * Real.sin (ik_theta (2 - 1) (0 - 0)) - 0| ≤ 1e-6)) :=
  ⟨⟨by norm_num, ik_2_0_eq⟩,
    ik_roundtrip 2 0 1 1 1 0 false (by norm_num) (by norm_num) ik_2_0_eq⟩

end Robotics
